import Mathlib

/-!
Shallow embedding of the Chicago-crime incremental loader
(`main.py`: `process_record`, `fetch_crime_data`, `crime_data_loader`),
together with theorems checking the specification's claims about it.

External effects are made explicit parameters:
the wall clock read by `datetime.now(UTC)` becomes a `DateTime` argument
(indexed per loop iteration), the Socrata App Token resolved from Secret
Manager becomes a `String` argument, the HTTP source becomes a list of
records (the records the API would return under the configured filter,
in the configured order), and the dlt/BigQuery sink becomes a boolean
oracle saying whether `pipeline.run` succeeds for a given load.
-/

namespace CrimeData

/-- Naive datetime as produced by Python `datetime.strptime` /
`datetime.now(UTC)` (components; `usec` are microseconds). -/
structure DateTime where
  year : Nat
  month : Nat
  day : Nat
  hour : Nat
  minute : Nat
  second : Nat
  usec : Nat
deriving DecidableEq, Repr

def isLeapYear (y : Nat) : Bool :=
  (y % 4 = 0 && y % 100 ≠ 0) || y % 400 = 0

def daysInMonth (y m : Nat) : Nat :=
  if m = 2 then (if isLeapYear y then 29 else 28)
  else if m = 4 ∨ m = 6 ∨ m = 9 ∨ m = 11 then 30
  else 31

/-- `dt - timedelta(days=1)`: subtract one calendar day (time of day
unchanged; naive UTC, so no DST adjustments). -/
def subOneDay (dt : DateTime) : DateTime :=
  if dt.day > 1 then { dt with day := dt.day - 1 }
  else if dt.month > 1 then
    { dt with month := dt.month - 1, day := daysInMonth dt.year (dt.month - 1) }
  else { dt with year := dt.year - 1, month := 12, day := 31 }

def pad2 (n : Nat) : String :=
  if n < 10 then "0" ++ toString n else toString n

def pad4 (n : Nat) : String :=
  if n < 10 then "000" ++ toString n
  else if n < 100 then "00" ++ toString n
  else if n < 1000 then "0" ++ toString n
  else toString n

def pad6 (n : Nat) : String :=
  if n < 10 then "00000" ++ toString n
  else if n < 100 then "0000" ++ toString n
  else if n < 1000 then "000" ++ toString n
  else if n < 10000 then "00" ++ toString n
  else if n < 100000 then "0" ++ toString n
  else toString n

/-- `dt.strftime("%Y-%m-%dT%H:%M:%S.000")` — the milliseconds are the
literal `000` in the format string (`main.py` line 87). -/
def strftimeMs000 (dt : DateTime) : String :=
  pad4 dt.year ++ "-" ++ pad2 dt.month ++ "-" ++ pad2 dt.day ++ "T" ++
  pad2 dt.hour ++ ":" ++ pad2 dt.minute ++ ":" ++ pad2 dt.second ++ ".000"

/-- `dt.isoformat()` for an aware UTC datetime: microseconds omitted when 0,
`+00:00` suffix (used for the `_dlt_load_id` stamp, `main.py` line 68). -/
def isoformat (dt : DateTime) : String :=
  pad4 dt.year ++ "-" ++ pad2 dt.month ++ "-" ++ pad2 dt.day ++ "T" ++
  pad2 dt.hour ++ ":" ++ pad2 dt.minute ++ ":" ++ pad2 dt.second ++
  (if dt.usec = 0 then "" else "." ++ pad6 dt.usec) ++ "+00:00"

def digitVal (c : Char) : Nat := c.toNat - '0'.toNat

/-- `%Y` in CPython `_strptime`: exactly four digits. -/
def parseYear4 : List Char → Option (Nat × List Char)
  | a :: b :: c :: d :: rest =>
    if a.isDigit && b.isDigit && c.isDigit && d.isDigit then
      some (1000 * digitVal a + 100 * digitVal b + 10 * digitVal c + digitVal d, rest)
    else none
  | _ => none

/-- Two-digit numeric field with the greedy-alternation semantics of the
CPython `_strptime` regexes: a two-digit match is taken when its value lies
in `[lo2, hi2]`, otherwise a single digit with value at least `lo1`.
(`%m` = `1 12 1`, `%d` = `1 31 1`, `%H` = `0 23 0`, `%M` = `0 59 0`,
`%S` = `0 61 0`.) -/
def parseNum2 (lo2 hi2 lo1 : Nat) : List Char → Option (Nat × List Char)
  | a :: b :: rest =>
    if a.isDigit && b.isDigit &&
       lo2 ≤ 10 * digitVal a + digitVal b && 10 * digitVal a + digitVal b ≤ hi2 then
      some (10 * digitVal a + digitVal b, rest)
    else if a.isDigit && lo1 ≤ digitVal a then some (digitVal a, b :: rest)
    else none
  | [a] => if a.isDigit && lo1 ≤ digitVal a then some (digitVal a, []) else none
  | [] => none

/-- `%f`: one to six digits, greedy, right-padded with zeros to microseconds. -/
def parseFrac (cs : List Char) : Option (Nat × List Char) :=
  let digits := (cs.takeWhile Char.isDigit).take 6
  if digits.length = 0 then none
  else some (digits.foldl (fun acc c => 10 * acc + digitVal c) 0 * 10 ^ (6 - digits.length),
             cs.drop digits.length)

def parseLit (c : Char) : List Char → Option (List Char)
  | x :: rest => if x = c then some rest else none
  | [] => none

/-- `datetime.strptime(s, "%Y-%m-%dT%H:%M:%S.%f")`: field regexes as in
CPython `_strptime`, whole string must be consumed, and the resulting
components must form a valid `datetime` (year at least 1, day within the
month, second at most 59). Returns `none` where Python raises `ValueError`. -/
def strptime (s : String) : Option DateTime := do
  let cs := s.toList
  let (y, cs) ← parseYear4 cs
  let cs ← parseLit '-' cs
  let (mo, cs) ← parseNum2 1 12 1 cs
  let cs ← parseLit '-' cs
  let (d, cs) ← parseNum2 1 31 1 cs
  let cs ← parseLit 'T' cs
  let (h, cs) ← parseNum2 0 23 0 cs
  let cs ← parseLit ':' cs
  let (mi, cs) ← parseNum2 0 59 0 cs
  let cs ← parseLit ':' cs
  let (se, cs) ← parseNum2 0 61 0 cs
  let cs ← parseLit '.' cs
  let (f, cs) ← parseFrac cs
  if cs.isEmpty && 1 ≤ y && d ≤ daysInMonth y mo && se ≤ 59 then
    some ⟨y, mo, d, h, mi, se, f⟩
  else none

/-- JSON-ish field value of one source record. -/
inductive Value where
  | vStr : String → Value
  | vNum : Int → Value
  | vTime : DateTime → Value
  | vNull : Value
deriving DecidableEq, Repr

/-- One source record: an ordered field-name/value mapping (Python dict). -/
abbrev Record := List (String × Value)

/-- `key in record` / `record[key]` on a Python dict (first binding wins;
records built from JSON objects have unique keys). -/
def lookupField (r : Record) (k : String) : Option Value :=
  match r with
  | [] => none
  | (k', v) :: rest => if k' = k then some v else lookupField rest k

/-- `record[key] = v` on a Python dict: replace in place when the key is
present, append otherwise (insertion order preserved). -/
def setField (r : Record) (k : String) (v : Value) : Record :=
  if (lookupField r k).isSome then
    r.map (fun p => if p.1 = k then (k, v) else p)
  else r ++ [(k, v)]

/-- `if key in record: record[key] = datetime.strptime(record[key], fmt)`:
absent key leaves the record untouched; a present non-string value makes
`strptime` raise `TypeError`; an unparsable string raises `ValueError`. -/
def convertField (r : Record) (k : String) : Except String Record :=
  match lookupField r k with
  | none => Except.ok r
  | some (Value.vStr s) =>
    match strptime s with
    | some dt => Except.ok (setField r k (Value.vTime dt))
    | none => Except.error ("time data " ++ s ++ " does not match format")
  | some _ => Except.error ("strptime argument 1 must be str")

/-- `process_record` (`main.py` lines 58-72): parse `date` and `updated_on`
in place, stamp `_dlt_load_id` with the current wall clock. The wall-clock
reading `datetime.now(UTC).isoformat()` is the explicit `loadId` argument. -/
def process_record (loadId : String) (record : Record) : Except String Record :=
  match convertField record "date" with
  | Except.error e => Except.error e
  | Except.ok r1 =>
    match convertField r1 "updated_on" with
    | Except.error e => Except.error e
    | Except.ok r2 => Except.ok (setField r2 "_dlt_load_id" (Value.vStr loadId))

/-- Decides whether field `k` of `r`, if present, is a string that
`strptime` accepts (so that `convertField` succeeds on it). -/
def parsableField (r : Record) (k : String) : Bool :=
  match lookupField r k with
  | none => true
  | some (Value.vStr s) => (strptime s).isSome
  | some _ => false

/-- Decides whether `process_record` succeeds on `r` (both timestamp
fields, when present, are parsable strings). -/
def recordParsable (r : Record) : Bool :=
  parsableField r "date" && parsableField r "updated_on"

/-- `CHICAGO_CRIME_API_URL` (`main.py` line 17). -/
def CHICAGO_CRIME_API_URL : String :=
  "https://data.cityofchicago.org/resource/ijzp-q8t2.json"

/-- `BATCH_SIZE` (`main.py` line 18): page limit and batch size. -/
def BATCH_SIZE : Nat := 50

/-- `get_api_headers` (`main.py` lines 36-56) applied to the App Token the
Secret Manager returns at this call. -/
def get_api_headers (appToken : String) : List (String × String) :=
  [("X-App-Token", appToken), ("Content-Type", "application/json")]

/-- One HTTP GET issued by `fetch_crime_data`: URL, Socrata query
parameters and headers (`main.py` lines 90-101). -/
structure ApiRequest where
  url : String
  limit : Nat
  offset : Nat
  order : String
  whereClause : String
  headers : List (String × String)
deriving DecidableEq, Repr

/-- The request `fetch_crime_data` builds from the wall clock `now` read at
the start of the call and the token resolved by `get_api_headers` during
the call: the `$where` lower bound is `now - timedelta(days=1)` formatted
with literal milliseconds `000`. -/
def buildRequest (now : DateTime) (token : String) (offset limit : Nat) : ApiRequest :=
  { url := CHICAGO_CRIME_API_URL
    limit := limit
    offset := offset
    order := "updated_on DESC"
    whereClause := "updated_on >= \x27" ++ strftimeMs000 (subOneDay now) ++ "\x27"
    headers := get_api_headers token }

/-- The simulated source: the ordered records the API returns under the
configured filter and ordering (records reachable by the run). -/
structure FetchEnv where
  source : List Record
deriving Repr

/-- The record sequence `response.json()` yields for a page request:
offset-based slicing capped at `limit` (0 ≤ length ≤ limit). -/
def apiFetch (env : FetchEnv) (offset limit : Nat) : List Record :=
  (env.source.drop offset).take limit

/-- `for record in response.json(): yield process_record(record)`
(`main.py` lines 105-106): records are processed in order; the first
failing record aborts the whole page with its error. -/
def processAll (loadId : String) : List Record → Except String (List Record)
  | [] => Except.ok []
  | r :: rs =>
    match process_record loadId r with
    | Except.error e => Except.error e
    | Except.ok o =>
      match processAll loadId rs with
      | Except.error e => Except.error e
      | Except.ok os => Except.ok (o :: os)

/-- Result of one `fetch_crime_data` call: the request it issued and
either the processed page or the propagated per-record error. -/
structure FetchOutcome where
  request : ApiRequest
  result : Except String (List Record)
deriving Repr

/-- `fetch_crime_data` (`main.py` lines 74-109): recompute the 24-hour
lower bound from the wall clock `now` read in this call, resolve headers
in this call, issue one bounded query, and process each returned record.
All records of the page are stamped with the `isoformat` of this call's
clock reading. -/
def fetch_crime_data (env : FetchEnv) (now : DateTime) (token : String)
    (offset : Nat) (limit : Nat := BATCH_SIZE) : FetchOutcome :=
  { request := buildRequest now token offset limit
    result := processAll (isoformat now) (apiFetch env offset limit) }

/-- A successfully processed page has as many records as the raw page. -/
theorem processAll_ok_length (loadId : String) :
    ∀ (l l' : List Record), processAll loadId l = Except.ok l' → l'.length = l.length := by
  intro l
  induction l with
  | nil => intro l' h; cases h; rfl
  | cons p ps ih =>
    intro l' h
    simp only [processAll] at h
    rcases h1 : process_record loadId p with e | o <;> rw [h1] at h
    · cases h
    · rcases h2 : processAll loadId ps with e | os <;> rw [h2] at h
      · cases h
      · cases h
        simp [ih os h2]

/-- Ambient effects of one `crime_data_loader` invocation: the simulated
source, the wall clock and resolved token as read during iteration `i` of
the while loop, and whether `pipeline.run` succeeds for load number `i`. -/
structure LoopCtx where
  env : FetchEnv
  clock : Nat → DateTime
  token : Nat → String
  sinkOk : Nat → Bool

/-- Observable outcome of the while loop of `crime_data_loader`:
whether it finished without an exception, the propagated error message,
the final `total_records` and `offset` variables, the number of non-empty
pages fetched, every API request issued, and every batch handed to
`pipeline.run`. -/
structure RunResult where
  ok : Bool
  message : String
  total : Nat
  offset : Nat
  pages : Nat
  requests : List ApiRequest
  sinkCalls : List (List Record)
deriving Repr

/-- The `while True` loop of `crime_data_loader` (`main.py` lines
131-167), entered with loop counter `pages` (number of non-empty pages
already loaded), cursor `offset` and running total `total`:
fetch one page at the current offset (a fetch/normalization error aborts
the run), stop successfully on an empty batch, hand the batch to
`pipeline.run` (a sink error aborts the run without advancing `offset` or
`total_records`), otherwise advance both by `len(batch)` and stop when the
page was shorter than `BATCH_SIZE`. -/
def loaderLoop (ctx : LoopCtx) (pages offset total : Nat) : RunResult :=
  let fo := fetch_crime_data ctx.env (ctx.clock pages) (ctx.token pages) offset BATCH_SIZE
  match hres : fo.result with
  | Except.error msg =>
    { ok := false, message := msg, total := total, offset := offset,
      pages := pages, requests := [fo.request], sinkCalls := [] }
  | Except.ok processed =>
    let batch := processed.take BATCH_SIZE
    if hemp : batch.isEmpty then
      { ok := true, message := "", total := total, offset := offset,
        pages := pages, requests := [fo.request], sinkCalls := [] }
    else if ctx.sinkOk pages then
      if batch.length < BATCH_SIZE then
        { ok := true, message := "", total := total + batch.length,
          offset := offset + batch.length, pages := pages + 1,
          requests := [fo.request], sinkCalls := [batch] }
      else
        let rest := loaderLoop ctx (pages + 1) (offset + batch.length) (total + batch.length)
        { rest with requests := fo.request :: rest.requests,
                    sinkCalls := batch :: rest.sinkCalls }
    else
      { ok := false, message := "Error loading batch", total := total,
        offset := offset, pages := pages, requests := [fo.request],
        sinkCalls := [batch] }
termination_by ctx.env.source.length - offset
decreasing_by
  simp only [fo, fetch_crime_data, apiFetch] at hres
  have hlen := processAll_ok_length _ _ _ hres
  simp only [batch, List.isEmpty_iff, ← List.length_eq_zero, List.length_take,
    List.length_drop, hlen] at *
  omega

/-- HTTP response of the Cloud Function: JSON body (ordered keys) and
status code (a bare dict is a 200). -/
structure HttpResponse where
  body : List (String × String)
  code : Nat
deriving DecidableEq, Repr

/-- `crime_data_loader` (`main.py` lines 111-182). The `request` argument
is the parsed body/query of the trigger; the function body never reads it.
Success returns `status`, `message` (with the total embedded) and
`load_info` with code 200; any exception returns `status`/`message` with
code 500. -/
def crime_data_loader (request : List (String × String)) (ctx : LoopCtx) :
    HttpResponse :=
  let r := loaderLoop ctx 0 0 0
  if r.ok then
    { body := [("status", "success"),
               ("message", "Successfully processed " ++ toString r.total ++ " records"),
               ("load_info", "last_load_info")]
      code := 200 }
  else
    { body := [("status", "error"),
               ("message", "Error in crime_data_loader: " ++ r.message)]
      code := 500 }

/-! ### Record-level lemmas -/

theorem lookupField_map_set (r : Record) (k k2 : String) (v : Value) (hne : k2 ≠ k) :
    lookupField (r.map fun p => if p.1 = k then (k, v) else p) k2 = lookupField r k2 := by
  have hkk2 : ¬(k = k2) := fun h => hne h.symm
  induction r with
  | nil => rfl
  | cons p ps ih =>
    rcases p with ⟨k', v'⟩
    by_cases hk : k' = k
    · subst hk
      simp only [List.map_cons, if_true]
      simp only [lookupField]
      rw [if_neg hkk2, if_neg hkk2]
      exact ih
    · simp only [List.map_cons]
      rw [if_neg (show ¬((k', v') : String × Value).1 = k from hk)]
      simp only [lookupField]
      by_cases hk2 : k' = k2
      · rw [if_pos hk2, if_pos hk2]
      · rw [if_neg hk2, if_neg hk2]
        exact ih

theorem lookupField_append_single (r : Record) (k k2 : String) (v : Value) (hne : k2 ≠ k) :
    lookupField (r ++ [(k, v)]) k2 = lookupField r k2 := by
  have hkk2 : ¬(k = k2) := fun h => hne h.symm
  induction r with
  | nil => simp [lookupField, hkk2]
  | cons p ps ih =>
    rcases p with ⟨k', v'⟩
    by_cases hk2 : k' = k2 <;> simp [lookupField, hk2, ih]

/-- Writing field `k` leaves every other field unchanged. -/
theorem lookupField_setField_ne (r : Record) (k k2 : String) (v : Value) (hne : k2 ≠ k) :
    lookupField (setField r k v) k2 = lookupField r k2 := by
  unfold setField
  split
  · exact lookupField_map_set r k k2 v hne
  · exact lookupField_append_single r k k2 v hne

/-- A successful `convertField` on field `k` leaves every other field
unchanged. -/
theorem convertField_ok_lookup_ne (r o : Record) (k k2 : String)
    (h : convertField r k = Except.ok o) (hne : k2 ≠ k) :
    lookupField o k2 = lookupField r k2 := by
  unfold convertField at h
  split at h
  · cases h; rfl
  · split at h
    · cases h
      exact lookupField_setField_ne r k k2 _ hne
    · cases h
  · cases h

/-- A successful `process_record` leaves every field other than `date`,
`updated_on` and `_dlt_load_id` unchanged. -/
theorem process_record_ok_lookup_ne (lid : String) (r o : Record) (k2 : String)
    (h : process_record lid r = Except.ok o)
    (h1 : k2 ≠ "date") (h2 : k2 ≠ "updated_on") (h3 : k2 ≠ "_dlt_load_id") :
    lookupField o k2 = lookupField r k2 := by
  unfold process_record at h
  split at h
  · cases h
  · rename_i r1 hc1
    split at h
    · cases h
    · rename_i r2 hc2
      cases h
      rw [lookupField_setField_ne r2 _ k2 _ h3,
          convertField_ok_lookup_ne r1 r2 _ k2 hc2 h2,
          convertField_ok_lookup_ne r r1 _ k2 hc1 h1]

/-- `convertField` succeeds exactly on parsable fields. -/
theorem convertField_parsable (r : Record) (k : String) :
    (parsableField r k = true → ∃ o, convertField r k = Except.ok o) ∧
    (parsableField r k = false → ∃ e, convertField r k = Except.error e) := by
  unfold parsableField convertField
  split
  · simp
  · split <;> simp_all
  · simp

/-- `parsableField _ "updated_on"` is unchanged by a successful conversion
of the `date` field. -/
theorem parsableField_after_date (r o : Record)
    (h : convertField r "date" = Except.ok o) :
    parsableField o "updated_on" = parsableField r "updated_on" := by
  unfold parsableField
  rw [convertField_ok_lookup_ne r o "date" "updated_on" h (by decide)]

/-- `process_record` succeeds exactly on records whose present timestamp
fields are parsable strings. -/
theorem process_record_parsable (lid : String) (r : Record) :
    (recordParsable r = true → ∃ o, process_record lid r = Except.ok o) ∧
    (recordParsable r = false → ∃ e, process_record lid r = Except.error e) := by
  have hrp : recordParsable r = (parsableField r "date" && parsableField r "updated_on") := rfl
  rcases hd : parsableField r "date" with _ | _
  · obtain ⟨e, he⟩ := (convertField_parsable r "date").2 hd
    have hp : process_record lid r = Except.error e := by
      unfold process_record
      rw [he]
    refine ⟨fun htrue => ?_, fun _ => ⟨e, hp⟩⟩
    rw [hrp, hd] at htrue
    simp at htrue
  · obtain ⟨r1, h1⟩ := (convertField_parsable r "date").1 hd
    have hu := parsableField_after_date r r1 h1
    rcases hu2 : parsableField r "updated_on" with _ | _
    · rw [hu2] at hu
      obtain ⟨e, he⟩ := (convertField_parsable r1 "updated_on").2 hu
      have hp : process_record lid r = Except.error e := by
        unfold process_record
        rw [h1]
        simp only []
        rw [he]
      refine ⟨fun htrue => ?_, fun _ => ⟨e, hp⟩⟩
      rw [hrp, hd, hu2] at htrue
      simp at htrue
    · rw [hu2] at hu
      obtain ⟨r2, h2⟩ := (convertField_parsable r1 "updated_on").1 hu
      have hp : process_record lid r =
          Except.ok (setField r2 "_dlt_load_id" (Value.vStr lid)) := by
        unfold process_record
        rw [h1]
        simp only []
        rw [h2]
      refine ⟨fun _ => ⟨_, hp⟩, fun hfalse => ?_⟩
      rw [hrp, hd, hu2] at hfalse
      simp at hfalse

/-- A page of parsable records processes successfully, preserving length. -/
theorem processAll_ok_of_parsable (lid : String) (l : List Record)
    (h : ∀ r ∈ l, recordParsable r = true) :
    ∃ l', processAll lid l = Except.ok l' ∧ l'.length = l.length := by
  induction l with
  | nil => exact ⟨[], rfl, rfl⟩
  | cons p ps ih =>
    obtain ⟨o, ho⟩ := (process_record_parsable lid p).1 (h p (List.mem_cons_self p ps))
    obtain ⟨os, hos, hlen⟩ := ih (fun r hr => h r (List.mem_cons_of_mem p hr))
    refine ⟨o :: os, ?_, by simp [hlen]⟩
    simp only [processAll]
    rw [ho, hos]

/-- A page containing an unparsable record fails to process. -/
theorem processAll_error_of_unparsable (lid : String) (l : List Record)
    (r : Record) (hr : r ∈ l) (hbad : recordParsable r = false) :
    ∃ e, processAll lid l = Except.error e := by
  induction l with
  | nil => cases hr
  | cons p ps ih =>
    simp only [processAll]
    rcases List.mem_cons.mp hr with heq | hmem
    · obtain ⟨e, he⟩ := (process_record_parsable lid p).2 (heq ▸ hbad)
      exact ⟨e, by rw [he]⟩
    · rcases hp : process_record lid p with e | o
      · exact ⟨e, rfl⟩
      · obtain ⟨e, he⟩ := ih hmem
        exact ⟨e, by rw [he]⟩

/-! ### Loop step lemmas: one while-iteration of `crime_data_loader`. -/

/-- Abbreviation for the fetch performed at iteration `pages` of the loop. -/
def loopFetch (ctx : LoopCtx) (pages offset : Nat) : FetchOutcome :=
  fetch_crime_data ctx.env (ctx.clock pages) (ctx.token pages) offset BATCH_SIZE

/-- A successfully fetched page has at most `BATCH_SIZE` records. -/
theorem loopFetch_ok_length (ctx : LoopCtx) (pages offset : Nat) (processed : List Record)
    (h : (loopFetch ctx pages offset).result = Except.ok processed) :
    processed.length ≤ BATCH_SIZE := by
  have h' : processAll (isoformat (ctx.clock pages)) (apiFetch ctx.env offset BATCH_SIZE)
      = Except.ok processed := h
  rw [processAll_ok_length _ _ _ h']
  simp [apiFetch, List.length_take]

/-- A fetch/normalization error aborts the run: nothing is handed to the
sink in this iteration, `offset` and `total_records` are unchanged. -/
theorem loaderLoop_fetch_error (ctx : LoopCtx) (pages offset total : Nat) (msg : String)
    (h : (loopFetch ctx pages offset).result = Except.error msg) :
    loaderLoop ctx pages offset total =
      { ok := false, message := msg, total := total, offset := offset, pages := pages,
        requests := [(loopFetch ctx pages offset).request], sinkCalls := [] } := by
  simp only [loopFetch] at h
  rw [loaderLoop.eq_def]
  simp only []
  split <;> rename_i x heq <;> rw [h] at heq
  · injection heq with hmsg
    subst hmsg
    rfl
  · cases heq

/-- An empty page terminates the loop successfully with nothing loaded. -/
theorem loaderLoop_empty (ctx : LoopCtx) (pages offset total : Nat)
    (h : (loopFetch ctx pages offset).result = Except.ok []) :
    loaderLoop ctx pages offset total =
      { ok := true, message := "", total := total, offset := offset, pages := pages,
        requests := [(loopFetch ctx pages offset).request], sinkCalls := [] } := by
  simp only [loopFetch] at h
  rw [loaderLoop.eq_def]
  simp only []
  split <;> rename_i x heq <;> rw [h] at heq
  · cases heq
  · injection heq with hp
    subst hp
    simp [loopFetch]

/-- A non-empty page shorter than `BATCH_SIZE`, with the sink succeeding,
is loaded and terminates the loop; `offset` and `total_records` advance by
the number of records fetched. -/
theorem loaderLoop_short (ctx : LoopCtx) (pages offset total : Nat)
    (processed : List Record)
    (h : (loopFetch ctx pages offset).result = Except.ok processed)
    (hne : processed ≠ [])
    (hsink : ctx.sinkOk pages = true)
    (hlt : processed.length < BATCH_SIZE) :
    loaderLoop ctx pages offset total =
      { ok := true, message := "", total := total + processed.length,
        offset := offset + processed.length, pages := pages + 1,
        requests := [(loopFetch ctx pages offset).request],
        sinkCalls := [processed] } := by
  have htake : processed.take BATCH_SIZE = processed :=
    List.take_of_length_le (Nat.le_of_lt hlt)
  simp only [loopFetch] at h
  rw [loaderLoop.eq_def]
  simp only []
  split <;> rename_i x heq <;> rw [h] at heq
  · cases heq
  · injection heq with hp
    subst hp
    simp [loopFetch, htake, List.isEmpty_iff, hne, hsink, hlt]

/-- A full page, with the sink succeeding, is loaded and the loop
continues at the advanced offset with the next iteration index. -/
theorem loaderLoop_full (ctx : LoopCtx) (pages offset total : Nat)
    (processed : List Record)
    (h : (loopFetch ctx pages offset).result = Except.ok processed)
    (hsink : ctx.sinkOk pages = true)
    (hfull : processed.length = BATCH_SIZE) :
    loaderLoop ctx pages offset total =
      { loaderLoop ctx (pages + 1) (offset + BATCH_SIZE) (total + BATCH_SIZE) with
          requests := (loopFetch ctx pages offset).request ::
            (loaderLoop ctx (pages + 1) (offset + BATCH_SIZE) (total + BATCH_SIZE)).requests,
          sinkCalls := processed ::
            (loaderLoop ctx (pages + 1) (offset + BATCH_SIZE) (total + BATCH_SIZE)).sinkCalls } := by
  have htake : processed.take BATCH_SIZE = processed :=
    List.take_of_length_le (Nat.le_of_eq hfull)
  have hne : processed ≠ [] := by
    intro hcon
    rw [hcon] at hfull
    simp [BATCH_SIZE] at hfull
  simp only [loopFetch] at h
  rw [loaderLoop.eq_def]
  simp only []
  split <;> rename_i x heq <;> rw [h] at heq
  · cases heq
  · injection heq with hp
    subst hp
    simp [loopFetch, htake, List.isEmpty_iff, hne, hsink, hfull]

/-- A sink (`pipeline.run`) failure aborts the run: the batch was handed
to the sink but `offset` and `total_records` are not advanced. -/
theorem loaderLoop_sink_error (ctx : LoopCtx) (pages offset total : Nat)
    (processed : List Record)
    (h : (loopFetch ctx pages offset).result = Except.ok processed)
    (hne : processed ≠ [])
    (hsink : ctx.sinkOk pages = false) :
    loaderLoop ctx pages offset total =
      { ok := false, message := "Error loading batch", total := total,
        offset := offset, pages := pages,
        requests := [(loopFetch ctx pages offset).request],
        sinkCalls := [processed.take BATCH_SIZE] } := by
  have hle := loopFetch_ok_length ctx pages offset processed h
  have htake : processed.take BATCH_SIZE = processed := List.take_of_length_le hle
  simp only [loopFetch] at h
  rw [loaderLoop.eq_def]
  simp only []
  split <;> rename_i x heq <;> rw [h] at heq
  · cases heq
  · injection heq with hp
    subst hp
    simp [loopFetch, htake, List.isEmpty_iff, hne, hsink]

/-! ### Whole-run characterization lemmas -/

/-- With an always-successful sink and a fully parsable source, the loop
entered at `offset` with `d` records remaining drains the source: it ends
successfully with `total` advanced by `d`, the cursor at the end of the
source, `⌈d / BATCH_SIZE⌉` further non-empty pages, and one request per
iteration at offsets `offset + BATCH_SIZE * j`. -/
theorem loaderLoop_success (ctx : LoopCtx)
    (hsink : ∀ i, ctx.sinkOk i = true)
    (hsrc : ∀ r ∈ ctx.env.source, recordParsable r = true) :
    ∀ d offset total pages, ctx.env.source.length - offset = d →
      offset ≤ ctx.env.source.length →
      (loaderLoop ctx pages offset total).ok = true ∧
      (loaderLoop ctx pages offset total).message = "" ∧
      (loaderLoop ctx pages offset total).total = total + d ∧
      (loaderLoop ctx pages offset total).offset = ctx.env.source.length ∧
      (loaderLoop ctx pages offset total).pages
        = pages + (d + (BATCH_SIZE - 1)) / BATCH_SIZE ∧
      (loaderLoop ctx pages offset total).requests =
        (List.range (d / BATCH_SIZE + 1)).map
          (fun j => buildRequest (ctx.clock (pages + j)) (ctx.token (pages + j))
            (offset + BATCH_SIZE * j) BATCH_SIZE) := by
  intro d
  induction d using Nat.strong_induction_on with
  | _ d ih =>
    intro offset total pages hd hoff
    have hpage : ∀ r ∈ (ctx.env.source.drop offset).take BATCH_SIZE,
        recordParsable r = true :=
      fun r hr => hsrc r (List.drop_subset _ _ (List.take_subset _ _ hr))
    obtain ⟨proc, hproc, hlen⟩ :=
      processAll_ok_of_parsable (isoformat (ctx.clock pages)) _ hpage
    have hfetch : (loopFetch ctx pages offset).result = Except.ok proc := by
      simp only [loopFetch, fetch_crime_data, apiFetch]
      exact hproc
    have hplen : proc.length = min BATCH_SIZE (ctx.env.source.length - offset) := by
      rw [hlen, List.length_take, List.length_drop]
    rcases Nat.eq_zero_or_pos d with hd0 | hdpos
    · subst hd0
      have hnil : proc = [] := by
        rw [← List.length_eq_zero, hplen, hd]
        simp
      rw [hnil] at hfetch
      rw [loaderLoop_empty ctx pages offset total hfetch]
      refine ⟨rfl, rfl, by simp, by simp; omega, by simp [BATCH_SIZE], ?_⟩
      simp [loopFetch, fetch_crime_data, BATCH_SIZE, List.range_succ, List.range_zero]
    · rcases Nat.lt_or_ge d BATCH_SIZE with hlt | hge
      · have hdlen : proc.length = d := by omega
        have hne : proc ≠ [] := by
          rw [← List.length_pos_iff_ne_nil]
          omega
        rw [loaderLoop_short ctx pages offset total proc hfetch hne (hsink pages)
          (by omega)]
        have h1 : (d + (BATCH_SIZE - 1)) / BATCH_SIZE = 1 := by
          simp only [BATCH_SIZE] at *
          omega
        have h2 : d / 50 = 0 := by
          simp only [BATCH_SIZE] at hlt
          omega
        refine ⟨rfl, rfl, by simp [hdlen], by simp [hdlen]; omega, ?_, ?_⟩
        · simp [h1]
        · simp [h2, loopFetch, fetch_crime_data, BATCH_SIZE, List.range_succ, List.range_zero]
      · have hdlen : proc.length = BATCH_SIZE := by
          simp only [BATCH_SIZE] at *
          omega
        rw [loaderLoop_full ctx pages offset total proc hfetch (hsink pages) hdlen]
        have hoff' : ctx.env.source.length - (offset + BATCH_SIZE) = d - BATCH_SIZE := by
          simp only [BATCH_SIZE] at *
          omega
        have hle' : offset + BATCH_SIZE ≤ ctx.env.source.length := by
          simp only [BATCH_SIZE] at *
          omega
        obtain ⟨ihok, ihmsg, ihtot, ihoff, ihpages, ihreq⟩ :=
          ih (d - BATCH_SIZE) (by simp only [BATCH_SIZE] at *; omega)
            (offset + BATCH_SIZE) (total + BATCH_SIZE) (pages + 1) hoff' hle'
        refine ⟨ihok, ihmsg, ?_, ihoff, ?_, ?_⟩
        · rw [ihtot]
          simp only [BATCH_SIZE] at *
          omega
        · rw [ihpages]
          simp only [BATCH_SIZE] at *
          omega
        · show (loopFetch ctx pages offset).request ::
            (loaderLoop ctx (pages + 1) (offset + BATCH_SIZE) (total + BATCH_SIZE)).requests = _
          rw [ihreq]
          have hrange : d / BATCH_SIZE + 1 = ((d - BATCH_SIZE) / BATCH_SIZE + 1) + 1 := by
            simp only [BATCH_SIZE] at *
            omega
          rw [hrange]
          conv_rhs => rw [List.range_succ_eq_map, List.map_cons, List.map_map]
          congr 1
          apply List.map_congr_left
          intro j hj
          have h1 : pages + 1 + j = pages + (j + 1) := by omega
          have h2 : offset + BATCH_SIZE + BATCH_SIZE * j = offset + BATCH_SIZE * (j + 1) := by
            ring
          simp only [Function.comp_apply, Nat.succ_eq_add_one, h1, h2]

/-- Every loop entry issues at least one request, and the first request of
the entered iteration is built from the wall clock and token read at that
iteration, at the current cursor. -/
theorem loaderLoop_first_request (ctx : LoopCtx) (pages offset total : Nat) :
    (loaderLoop ctx pages offset total).requests.head? =
      some (buildRequest (ctx.clock pages) (ctx.token pages) offset BATCH_SIZE) := by
  rw [loaderLoop.eq_def]
  simp only []
  split
  · rfl
  · split
    · rfl
    · split
      · split
        · rfl
        · rfl
      · rfl

/-- With a sink that accepts the first `k` loads and fails on load `k`,
and a fully parsable source holding more than `BATCH_SIZE * k` reachable
records, the loop entered at page `j ≤ k` with cursor `BATCH_SIZE * j`
ends failed at page `k`: the cursor sticks at `BATCH_SIZE * k`, the offset
reached after the `k` successful pages. -/
theorem loaderLoop_sinkFail (ctx : LoopCtx) (k : Nat)
    (hsink : ∀ i, ctx.sinkOk i = decide (i < k))
    (hsrc : ∀ r ∈ ctx.env.source, recordParsable r = true)
    (hN : BATCH_SIZE * k < ctx.env.source.length) :
    ∀ n j total, j ≤ k → k - j = n →
      (loaderLoop ctx j (BATCH_SIZE * j) total).ok = false ∧
      (loaderLoop ctx j (BATCH_SIZE * j) total).message = "Error loading batch" ∧
      (loaderLoop ctx j (BATCH_SIZE * j) total).total = total + BATCH_SIZE * (k - j) ∧
      (loaderLoop ctx j (BATCH_SIZE * j) total).offset = BATCH_SIZE * k ∧
      (loaderLoop ctx j (BATCH_SIZE * j) total).pages = k := by
  intro n
  induction n using Nat.strong_induction_on with
  | _ n ih =>
    intro j total hjk hn
    have hpage : ∀ r ∈ (ctx.env.source.drop (BATCH_SIZE * j)).take BATCH_SIZE,
        recordParsable r = true :=
      fun r hr => hsrc r (List.drop_subset _ _ (List.take_subset _ _ hr))
    obtain ⟨proc, hproc, hlen⟩ :=
      processAll_ok_of_parsable (isoformat (ctx.clock j)) _ hpage
    have hfetch : (loopFetch ctx j (BATCH_SIZE * j)).result = Except.ok proc := by
      simp only [loopFetch, fetch_crime_data, apiFetch]
      exact hproc
    have hplen : proc.length
        = min BATCH_SIZE (ctx.env.source.length - BATCH_SIZE * j) := by
      rw [hlen, List.length_take, List.length_drop]
    rcases Nat.eq_or_lt_of_le hjk with hj | hj
    · subst hj
      have hne : proc ≠ [] := by
        rw [← List.length_pos_iff_ne_nil, hplen]
        simp only [BATCH_SIZE] at *
        omega
      have hsk : ctx.sinkOk j = false := by
        rw [hsink]
        simp
      rw [loaderLoop_sink_error ctx j (BATCH_SIZE * j) total proc hfetch hne hsk]
      exact ⟨rfl, rfl, by simp, rfl, rfl⟩
    · have hfull : proc.length = BATCH_SIZE := by
        have : BATCH_SIZE * j + BATCH_SIZE ≤ BATCH_SIZE * k := by
          have : j + 1 ≤ k := hj
          calc BATCH_SIZE * j + BATCH_SIZE = BATCH_SIZE * (j + 1) := by ring
            _ ≤ BATCH_SIZE * k := Nat.mul_le_mul_left _ this
        simp only [BATCH_SIZE] at *
        omega
      have hsk : ctx.sinkOk j = true := by
        rw [hsink]
        simp [hj]
      rw [loaderLoop_full ctx j (BATCH_SIZE * j) total proc hfetch hsk hfull]
      have hnext : BATCH_SIZE * j + BATCH_SIZE = BATCH_SIZE * (j + 1) := by ring
      rw [hnext]
      obtain ⟨ihok, ihmsg, ihtot, ihoff, ihpages⟩ :=
        ih (n - 1) (by omega) (j + 1) (total + BATCH_SIZE) hj (by omega)
      refine ⟨ihok, ihmsg, ?_, ihoff, ihpages⟩
      rw [ihtot]
      have hkj : k - j = (k - (j + 1)) + 1 := by omega
      rw [hkj]
      ring

/-! ### Concrete fixtures used by witnesses and counterexamples. -/

/-- A fixed wall-clock reading. -/
def dtA : DateTime := ⟨2025, 6, 1, 12, 0, 0, 0⟩

/-- A later wall-clock reading (a different fetch instant). -/
def dtB : DateTime := ⟨2025, 6, 15, 8, 0, 0, 0⟩

/-- Simulated source record number `i`: no timestamp fields, so always
parsable. -/
def recN (i : Nat) : Record := [("id", Value.vNum i)]

/-- A simulated source of `n` records. -/
def srcList (n : Nat) : List Record := (List.range n).map recN

/-- A healthy run context over `n` records: constant clock and token,
always-successful sink. -/
def ctxOf (n : Nat) : LoopCtx :=
  { env := ⟨srcList n⟩, clock := fun _ => dtA, token := fun _ => "TOKEN",
    sinkOk := fun _ => true }

/-- 60-record context whose sink accepts load 0 and fails on load 1. -/
def ctxFail60 : LoopCtx :=
  { env := ⟨srcList 60⟩, clock := fun _ => dtA, token := fun _ => "TOKEN",
    sinkOk := fun i => decide (i < 1) }

/-- 60-record healthy context with distinct clocks and tokens per
iteration (models re-reading the wall clock and re-resolving the secret
on each fetch). -/
def ctxC10 : LoopCtx :=
  { env := ⟨srcList 60⟩,
    clock := fun i => if i = 0 then dtA else dtB,
    token := fun i => if i = 0 then "tokA" else "tokB",
    sinkOk := fun _ => true }

/-- Single-page context containing a record whose `date` is unparsable. -/
def ctxBad : LoopCtx :=
  { env := ⟨[recN 0, [("date", Value.vStr "bogus"), ("id", Value.vNum 1)], recN 2]⟩,
    clock := fun _ => dtA, token := fun _ => "TOKEN", sinkOk := fun _ => true }

/-- The page the first iteration of a run over `srcList 3` obtains:
each record stamped with the constant clock of `ctxOf`. -/
def procs3 : List Record :=
  [[("id", Value.vNum 0), ("_dlt_load_id", Value.vStr "2025-06-01T12:00:00+00:00")],
   [("id", Value.vNum 1), ("_dlt_load_id", Value.vStr "2025-06-01T12:00:00+00:00")],
   [("id", Value.vNum 2), ("_dlt_load_id", Value.vStr "2025-06-01T12:00:00+00:00")]]

theorem srcList_parsable (n : Nat) : ∀ r ∈ srcList n, recordParsable r = true := by
  intro r hr
  simp only [srcList, List.mem_map] at hr
  obtain ⟨i, _, hi⟩ := hr
  rw [← hi]
  rfl

/-! ### Claim theorems -/

/-- Claim C1: for every simulated source holding `N` records reachable
under the configured filter, with page limit `BATCH_SIZE`, a full run of
`crime_data_loader` with no page-count cap fetches exactly `⌈N / BATCH_SIZE⌉`
non-empty pages, processes each of the `N` records exactly once
(`records_processed = N`), and terminates in the success state. -/
theorem pagination_completeness (ctx : LoopCtx)
    (hsink : ∀ i, ctx.sinkOk i = true)
    (hsrc : ∀ r ∈ ctx.env.source, recordParsable r = true) :
    (loaderLoop ctx 0 0 0).ok = true ∧
    (loaderLoop ctx 0 0 0).total = ctx.env.source.length ∧
    (loaderLoop ctx 0 0 0).pages
      = (ctx.env.source.length + (BATCH_SIZE - 1)) / BATCH_SIZE := by
  obtain ⟨hok, _, htot, _, hpages, _⟩ :=
    loaderLoop_success ctx hsink hsrc ctx.env.source.length 0 0 0 (by omega) (by omega)
  exact ⟨hok, by simpa using htot, by simpa using hpages⟩

theorem pagination_completeness_witness :
    (loaderLoop (ctxOf 60) 0 0 0).ok = true ∧
    (loaderLoop (ctxOf 60) 0 0 0).total = 60 ∧
    (loaderLoop (ctxOf 60) 0 0 0).pages = 2 := by
  obtain ⟨h1, h2, h3⟩ :=
    pagination_completeness (ctxOf 60) (fun _ => rfl) (srcList_parsable 60)
  refine ⟨h1, ?_, ?_⟩
  · rw [h2]
    simp [ctxOf, srcList]
  · rw [h3]
    simp [ctxOf, srcList, BATCH_SIZE]

/-- Claim C2: after every successful batch load the loop advances the
cursor by exactly the number of records fetched in that page (not by the
page limit); it terminates (done) on an empty page or a page shorter than
the requested limit, and otherwise loops back to fetch the next page at
the advanced cursor. -/
theorem cursor_advance_and_termination (ctx : LoopCtx) (pages offset total : Nat)
    (processed : List Record)
    (h : (loopFetch ctx pages offset).result = Except.ok processed)
    (hsink : ctx.sinkOk pages = true) :
    (processed = [] →
      loaderLoop ctx pages offset total =
        { ok := true, message := "", total := total, offset := offset,
          pages := pages, requests := [(loopFetch ctx pages offset).request],
          sinkCalls := [] }) ∧
    (processed ≠ [] → processed.length < BATCH_SIZE →
      loaderLoop ctx pages offset total =
        { ok := true, message := "", total := total + processed.length,
          offset := offset + processed.length, pages := pages + 1,
          requests := [(loopFetch ctx pages offset).request],
          sinkCalls := [processed] }) ∧
    (processed.length = BATCH_SIZE →
      loaderLoop ctx pages offset total =
        { loaderLoop ctx (pages + 1) (offset + processed.length)
            (total + processed.length) with
          requests := (loopFetch ctx pages offset).request ::
            (loaderLoop ctx (pages + 1) (offset + processed.length)
              (total + processed.length)).requests,
          sinkCalls := processed ::
            (loaderLoop ctx (pages + 1) (offset + processed.length)
              (total + processed.length)).sinkCalls }) := by
  refine ⟨?_, ?_, ?_⟩
  · intro hemp
    subst hemp
    exact loaderLoop_empty ctx pages offset total h
  · intro hne hlt
    exact loaderLoop_short ctx pages offset total processed h hne hsink hlt
  · intro hfull
    have := loaderLoop_full ctx pages offset total processed h hsink hfull
    rw [← hfull] at this
    exact this

theorem cursor_advance_and_termination_witness :
    loaderLoop (ctxOf 3) 0 0 0 =
      { ok := true, message := "", total := 0 + (procs3).length,
        offset := 0 + procs3.length, pages := 0 + 1,
        requests := [(loopFetch (ctxOf 3) 0 0).request],
        sinkCalls := [procs3] } :=
  (cursor_advance_and_termination (ctxOf 3) 0 0 0 procs3 rfl rfl).2.1
    (by decide) (by decide)

/-- Claim C3 as stated fails on the code: after one page loaded and a sink
failure on page 2 (source of 60 records), the cursor is left at 50, but a
retried run does not re-fetch and re-merge exactly the failed page — it
restarts at offset 0, issuing its first request for the already-loaded
page 0 and loading 2 pages. -/
theorem failure_no_progress_counterexample :
    (loaderLoop ctxFail60 0 0 0).ok = false ∧
    (loaderLoop ctxFail60 0 0 0).offset = 50 ∧
    (loaderLoop (ctxOf 60) 0 0 0).requests.map ApiRequest.offset = [0, 50] ∧
    (loaderLoop (ctxOf 60) 0 0 0).pages = 2 ∧
    (0 : Nat) ≠ 50 := by
  have hlen : ctxFail60.env.source.length = 60 := by
    simp [ctxFail60, srcList]
  obtain ⟨hok, _, _, hoff, _⟩ :=
    loaderLoop_sinkFail ctxFail60 1 (fun _ => rfl) (srcList_parsable 60)
      (by rw [hlen]; decide) 1 0 0 (by omega) rfl
  obtain ⟨_, _, _, _, hpages, hreq⟩ :=
    loaderLoop_success (ctxOf 60) (fun _ => rfl) (srcList_parsable 60)
      ((ctxOf 60).env.source.length) 0 0 0 (by omega) (by omega)
  have hlen60 : (ctxOf 60).env.source.length = 60 := by
    simp [ctxOf, srcList]
  refine ⟨by simpa using hok, by simpa [BATCH_SIZE] using hoff, ?_, ?_, by decide⟩
  · rw [hreq, hlen60]
    decide
  · rw [hpages, hlen60]
    decide

/-- Claim C3 (amended): if the sink fails while loading page `k + 1` after
`k` pages loaded successfully, the run ends failed with the loop's cursor
(and total) left at `BATCH_SIZE * k`, the offset reached after page `k`;
a retried run restarts at offset 0, so it re-fetches and re-merges the
failed page along with every earlier page. -/
theorem failure_no_progress (ctx : LoopCtx) (k : Nat)
    (hsink : ∀ i, ctx.sinkOk i = decide (i < k))
    (hsrc : ∀ r ∈ ctx.env.source, recordParsable r = true)
    (hN : BATCH_SIZE * k < ctx.env.source.length) :
    (loaderLoop ctx 0 0 0).ok = false ∧
    (loaderLoop ctx 0 0 0).offset = BATCH_SIZE * k ∧
    (loaderLoop ctx 0 0 0).total = BATCH_SIZE * k ∧
    (loaderLoop ctx 0 0 0).pages = k ∧
    ∀ ctx2 : LoopCtx, ctx2.env = ctx.env → (∀ i, ctx2.sinkOk i = true) →
      (∃ rq ∈ (loaderLoop ctx2 0 0 0).requests, rq.offset = BATCH_SIZE * k) ∧
      (loaderLoop ctx2 0 0 0).requests.head? =
        some (buildRequest (ctx2.clock 0) (ctx2.token 0) 0 BATCH_SIZE) ∧
      (loaderLoop ctx2 0 0 0).total = ctx.env.source.length := by
  obtain ⟨hok, _, htot, hoff, hpages⟩ :=
    loaderLoop_sinkFail ctx k hsink hsrc hN k 0 0 (Nat.zero_le k) rfl
  refine ⟨by simpa using hok, by simpa using hoff, by simpa using htot,
    by simpa using hpages, ?_⟩
  intro ctx2 henv hsink2
  have hsrc2 : ∀ r ∈ ctx2.env.source, recordParsable r = true := by
    rw [henv]
    exact hsrc
  obtain ⟨_, _, htot2, _, _, hreq2⟩ :=
    loaderLoop_success ctx2 hsink2 hsrc2 ctx2.env.source.length 0 0 0
      (by omega) (by omega)
  refine ⟨?_, loaderLoop_first_request ctx2 0 0 0, ?_⟩
  · refine ⟨buildRequest (ctx2.clock (0 + k)) (ctx2.token (0 + k))
      (0 + BATCH_SIZE * k) BATCH_SIZE, ?_, by simp [buildRequest]⟩
    rw [hreq2]
    apply List.mem_map_of_mem
    apply List.mem_range.mpr
    have hN2 : BATCH_SIZE * k < ctx2.env.source.length := by
      rw [henv]
      exact hN
    simp only [BATCH_SIZE] at hN2 ⊢
    omega
  · rw [htot2, henv]
    simp

theorem failure_no_progress_witness :
    (loaderLoop ctxFail60 0 0 0).ok = false ∧
    (loaderLoop ctxFail60 0 0 0).offset = 50 ∧
    (loaderLoop ctxFail60 0 0 0).total = 50 ∧
    (∃ rq ∈ (loaderLoop (ctxOf 60) 0 0 0).requests, rq.offset = 50) ∧
    (loaderLoop (ctxOf 60) 0 0 0).total = 60 := by
  have hlen : ctxFail60.env.source.length = 60 := by
    simp [ctxFail60, srcList]
  obtain ⟨h1, h2, h3, h4, h5⟩ :=
    failure_no_progress ctxFail60 1 (fun _ => rfl) (srcList_parsable 60)
      (by rw [hlen]; decide)
  obtain ⟨h6, _, h7⟩ := h5 (ctxOf 60) rfl (fun _ => rfl)
  refine ⟨h1, by simpa [BATCH_SIZE] using h2, by simpa [BATCH_SIZE] using h3,
    ?_, by rw [h7, hlen]⟩
  simpa [BATCH_SIZE] using h6

/-- Claim C4 as stated fails on the code: `process_record` does not touch
the primary-key field `id` — a numeric `id` stays numeric and remains a
different value from the string form of the same key. -/
theorem pk_coercion_counterexample :
    process_record "L" [("id", Value.vNum 123)] =
      Except.ok [("id", Value.vNum 123), ("_dlt_load_id", Value.vStr "L")] ∧
    process_record "L" [("id", Value.vStr "123")] =
      Except.ok [("id", Value.vStr "123"), ("_dlt_load_id", Value.vStr "L")] ∧
    Value.vNum 123 ≠ Value.vStr "123" :=
  ⟨rfl, rfl, by decide⟩

/-- Claim C4 (amended): normalization leaves the primary-key field `id`
unchanged — no coercion to a canonical string form is performed, so
numeric and string source representations of the same key remain distinct
values across runs. -/
theorem pk_left_unchanged (lid : String) (r o : Record)
    (h : process_record lid r = Except.ok o) :
    lookupField o "id" = lookupField r "id" :=
  process_record_ok_lookup_ne lid r o "id" h (by decide) (by decide) (by decide)

theorem pk_left_unchanged_witness :
    lookupField [("id", Value.vNum 123), ("_dlt_load_id", Value.vStr "L")] "id"
      = lookupField [("id", Value.vNum 123)] "id" :=
  pk_left_unchanged "L" [("id", Value.vNum 123)]
    [("id", Value.vNum 123), ("_dlt_load_id", Value.vStr "L")] rfl

/-- Claim C5 as stated fails on the code: the success response body has
exactly the keys `status`, `message`, `load_info` — it contains no
`records_processed`, `next_offset` or `has_more` field (the count appears
only inside the message string). -/
theorem response_contract_counterexample :
    (crime_data_loader [] (ctxOf 0)).body.map Prod.fst
      = ["status", "message", "load_info"] ∧
    (∀ p ∈ (crime_data_loader [] (ctxOf 0)).body,
      p.1 ≠ "records_processed" ∧ p.1 ≠ "next_offset" ∧ p.1 ≠ "has_more") ∧
    (crime_data_loader [] (ctxOf 0)).code = 200 := by
  have h : (loopFetch (ctxOf 0) 0 0).result = Except.ok [] := rfl
  have hrun := loaderLoop_empty (ctxOf 0) 0 0 0 h
  simp only [crime_data_loader, hrun]
  refine ⟨rfl, ?_, rfl⟩
  decide

/-- Claim C5 (amended): a successful run returns status `success` with
code 200 and a message embedding the count of records processed (plus
opaque load info), but no separate `records_processed`, `next_offset` or
`has_more` fields; a failed run returns status `error` with a message and
the non-2xx code 500. -/
theorem response_contract (request : List (String × String)) (ctx : LoopCtx) :
    ((loaderLoop ctx 0 0 0).ok = true →
      crime_data_loader request ctx =
        { body := [("status", "success"),
                   ("message", "Successfully processed "
                     ++ toString (loaderLoop ctx 0 0 0).total ++ " records"),
                   ("load_info", "last_load_info")],
          code := 200 }) ∧
    ((loaderLoop ctx 0 0 0).ok = false →
      crime_data_loader request ctx =
        { body := [("status", "error"),
                   ("message", "Error in crime_data_loader: "
                     ++ (loaderLoop ctx 0 0 0).message)],
          code := 500 }) := by
  constructor
  · intro hok
    simp [crime_data_loader, hok]
  · intro hbad
    simp [crime_data_loader, hbad]

theorem response_contract_witness :
    crime_data_loader [] (ctxOf 0) =
      { body := [("status", "success"),
                 ("message", "Successfully processed 0 records"),
                 ("load_info", "last_load_info")],
        code := 200 } := by
  have h : (loopFetch (ctxOf 0) 0 0).result = Except.ok [] := rfl
  have hrun := loaderLoop_empty (ctxOf 0) 0 0 0 h
  have hres := (response_contract [] (ctxOf 0)).1 (by rw [hrun])
  rw [hres, hrun]
  rfl

/-- Claim C6 as stated fails on the code: `crime_data_loader` reads no
request parameter. With a one-record source and a request carrying
`offset = 7`, `max_batches = 0` and a `since` override, the run still
starts at cursor 0 (its only request has offset 0), processes the record
anyway, and returns exactly the response of a parameterless request. -/
theorem trigger_params_counterexample :
    crime_data_loader
        [("offset", "7"), ("max_batches", "0"),
         ("since", "2020-01-01T00:00:00.000")] (ctxOf 1)
      = crime_data_loader [] (ctxOf 1) ∧
    (loaderLoop (ctxOf 1) 0 0 0).requests.map ApiRequest.offset = [0] ∧
    (loaderLoop (ctxOf 1) 0 0 0).total = 1 := by
  obtain ⟨_, _, htot, _, _, hreq⟩ :=
    loaderLoop_success (ctxOf 1) (fun _ => rfl) (srcList_parsable 1)
      (ctxOf 1).env.source.length 0 0 0 (by omega) (by omega)
  have hlen : (ctxOf 1).env.source.length = 1 := by
    simp [ctxOf, srcList]
  refine ⟨rfl, ?_, ?_⟩
  · rw [hreq, hlen]
    decide
  · rw [htot, hlen]

/-- Claim C6 (amended): the entry point accepts a request object but
ignores it entirely — no `offset`, `max_batches` or `since` parameter is
read. The response is identical for any two requests, and every run
starts with a fetch at cursor 0 built from the run's own clock and token. -/
theorem trigger_ignores_request (req1 req2 : List (String × String)) (ctx : LoopCtx) :
    crime_data_loader req1 ctx = crime_data_loader req2 ctx ∧
    (loaderLoop ctx 0 0 0).requests.head? =
      some (buildRequest (ctx.clock 0) (ctx.token 0) 0 BATCH_SIZE) :=
  ⟨rfl, loaderLoop_first_request ctx 0 0 0⟩

/-- Claim C7: normalization parses `date` and `updated_on` from their
textual source format into a timestamp when present — a record with
`date = "2025-01-01T00:00:00.000"` normalizes to the timestamp
2025-01-01 00:00:00 (naive UTC) — and a record without a `date` field
passes through without a `date` field being added. -/
theorem normalization_correctness :
    (∀ lid, process_record lid [("date", Value.vStr "2025-01-01T00:00:00.000")] =
      Except.ok [("date", Value.vTime ⟨2025, 1, 1, 0, 0, 0, 0⟩),
                 ("_dlt_load_id", Value.vStr lid)]) ∧
    (∀ lid, process_record lid
        [("updated_on", Value.vStr "2025-01-01T00:00:00.000")] =
      Except.ok [("updated_on", Value.vTime ⟨2025, 1, 1, 0, 0, 0, 0⟩),
                 ("_dlt_load_id", Value.vStr lid)]) ∧
    (∀ lid r o, lookupField r "date" = none → process_record lid r = Except.ok o →
      lookupField o "date" = none) := by
  refine ⟨fun lid => rfl, fun lid => rfl, ?_⟩
  intro lid r o hnone h
  have hc1 : convertField r "date" = Except.ok r := by
    unfold convertField
    rw [hnone]
  unfold process_record at h
  rw [hc1] at h
  simp only [] at h
  split at h
  · cases h
  · rename_i r2 hc2
    injection h with ho
    subst ho
    rw [lookupField_setField_ne r2 _ "date" _ (by decide),
        convertField_ok_lookup_ne r r2 "updated_on" "date" hc2 (by decide), hnone]

theorem normalization_correctness_witness :
    process_record "L" [("date", Value.vStr "2025-01-01T00:00:00.000")] =
      Except.ok [("date", Value.vTime ⟨2025, 1, 1, 0, 0, 0, 0⟩),
                 ("_dlt_load_id", Value.vStr "L")] ∧
    lookupField [("id", Value.vNum 1), ("_dlt_load_id", Value.vStr "L")] "date"
      = none :=
  ⟨normalization_correctness.1 "L",
   normalization_correctness.2.2 "L" [("id", Value.vNum 1)]
     [("id", Value.vNum 1), ("_dlt_load_id", Value.vStr "L")] rfl rfl⟩

/-- Claim C8: a page containing a record whose declared timestamp field is
present but unparsable fails normalization with a record-scoped error, and
the loop iteration that fetched the page aborts the run with nothing of
that page handed to the sink and the cursor not advanced. -/
theorem page_abort_on_unparsable :
    (∀ env now token offset limit r, r ∈ apiFetch env offset limit →
      recordParsable r = false →
      ∃ msg, (fetch_crime_data env now token offset limit).result
        = Except.error msg) ∧
    (∀ ctx pages offset total msg,
      (loopFetch ctx pages offset).result = Except.error msg →
      loaderLoop ctx pages offset total =
        { ok := false, message := msg, total := total, offset := offset,
          pages := pages, requests := [(loopFetch ctx pages offset).request],
          sinkCalls := [] }) := by
  constructor
  · intro env now token offset limit r hr hbad
    exact processAll_error_of_unparsable (isoformat now) _ r hr hbad
  · intro ctx pages offset total msg h
    exact loaderLoop_fetch_error ctx pages offset total msg h

theorem page_abort_on_unparsable_witness :
    (∃ msg, (fetch_crime_data ctxBad.env dtA "TOKEN" 0 BATCH_SIZE).result
      = Except.error msg) ∧
    loaderLoop ctxBad 0 0 0 =
      { ok := false, message := "time data bogus does not match format",
        total := 0, offset := 0, pages := 0,
        requests := [(loopFetch ctxBad 0 0).request], sinkCalls := [] } :=
  ⟨page_abort_on_unparsable.1 ctxBad.env dtA "TOKEN" 0 BATCH_SIZE
      [("date", Value.vStr "bogus"), ("id", Value.vNum 1)] (by decide) (by decide),
   page_abort_on_unparsable.2 ctxBad 0 0 0
      "time data bogus does not match format" rfl⟩

/-- The timestamp conversions of `process_record` without the load-id
stamp: the part of normalization that does not depend on the wall clock. -/
def convert2 (r : Record) : Except String Record :=
  match convertField r "date" with
  | Except.error e => Except.error e
  | Except.ok r1 => convertField r1 "updated_on"

theorem process_record_eq_convert2 (lid : String) (r : Record) :
    process_record lid r =
      (convert2 r).map (fun r2 => setField r2 "_dlt_load_id" (Value.vStr lid)) := by
  unfold process_record convert2
  rcases convertField r "date" with e | r1
  · rfl
  · simp only []
    rcases convertField r1 "updated_on" with e | r2 <;> rfl

theorem lookupField_map_set_self (r : Record) (k : String) (v : Value)
    (hsome : (lookupField r k).isSome) :
    lookupField (r.map fun p => if p.1 = k then (k, v) else p) k = some v := by
  induction r with
  | nil => simp [lookupField] at hsome
  | cons p ps ih =>
    rcases p with ⟨k', v'⟩
    by_cases hk : k' = k
    · subst hk
      simp only [List.map_cons, if_true]
      simp [lookupField]
    · simp only [List.map_cons]
      rw [if_neg (show ¬((k', v') : String × Value).1 = k from hk)]
      simp only [lookupField]
      rw [if_neg hk]
      apply ih
      simpa [lookupField, hk] using hsome

theorem lookupField_append_self (r : Record) (k : String) (v : Value) :
    lookupField (r ++ [(k, v)]) k = some v ∨ (lookupField r k).isSome := by
  induction r with
  | nil => simp [lookupField]
  | cons p ps ih =>
    rcases p with ⟨k', v'⟩
    by_cases hk : k' = k
    · right
      simp [lookupField, hk]
    · rcases ih with h | h
      · left
        simp only [List.cons_append, lookupField]
        rw [if_neg hk]
        exact h
      · right
        simpa [lookupField, hk] using h

/-- Writing field `k` makes it read back as the written value. -/
theorem lookupField_setField_self (r : Record) (k : String) (v : Value) :
    lookupField (setField r k v) k = some v := by
  unfold setField
  split
  · exact lookupField_map_set_self r k v (by assumption)
  · rename_i hnone
    rcases lookupField_append_self r k v with h | h
    · exact h
    · exact absurd h hnone

/-- Claim C9 as stated fails on the code: `process_record` stamps the wall
clock into `_dlt_load_id`, so normalizing the same record at two different
instants gives different outputs. -/
theorem normalize_purity_counterexample :
    process_record (isoformat dtA) [("id", Value.vNum 1)] ≠
      process_record (isoformat dtB) [("id", Value.vNum 1)] := by
  have h1 : process_record (isoformat dtA) [("id", Value.vNum 1)] =
      Except.ok [("id", Value.vNum 1),
                 ("_dlt_load_id", Value.vStr "2025-06-01T12:00:00+00:00")] := rfl
  have h2 : process_record (isoformat dtB) [("id", Value.vNum 1)] =
      Except.ok [("id", Value.vNum 1),
                 ("_dlt_load_id", Value.vStr "2025-06-15T08:00:00+00:00")] := rfl
  rw [h1, h2]
  intro hcon
  injection hcon with hl
  exact absurd hl (by decide)

/-- Claim C9 (amended): normalization is deterministic given the wall
clock, and the clock influences only the `_dlt_load_id` stamp — two
applications to the same record succeed or fail together, agree on every
field other than `_dlt_load_id`, and each carries its own clock reading
in `_dlt_load_id`. -/
theorem normalize_clock_dependence (t1 t2 : String) (r : Record) :
    ((process_record t1 r).toOption.isSome
      = (process_record t2 r).toOption.isSome) ∧
    (∀ o1 o2, process_record t1 r = Except.ok o1 →
      process_record t2 r = Except.ok o2 →
      (∀ k, k ≠ "_dlt_load_id" → lookupField o1 k = lookupField o2 k) ∧
      lookupField o1 "_dlt_load_id" = some (Value.vStr t1) ∧
      lookupField o2 "_dlt_load_id" = some (Value.vStr t2)) := by
  constructor
  · rw [process_record_eq_convert2 t1, process_record_eq_convert2 t2]
    rcases convert2 r with e | r2 <;> rfl
  · intro o1 o2 h1 h2
    rw [process_record_eq_convert2] at h1 h2
    rcases hc : convert2 r with e | r2 <;> rw [hc] at h1 h2
    · cases h1
    · simp only [Except.map] at h1 h2
      injection h1 with e1
      injection h2 with e2
      subst e1
      subst e2
      refine ⟨?_, lookupField_setField_self r2 _ _, lookupField_setField_self r2 _ _⟩
      intro k hk
      rw [lookupField_setField_ne r2 _ k _ hk, lookupField_setField_ne r2 _ k _ hk]

theorem normalize_clock_dependence_witness :
    lookupField [("id", Value.vNum 1), ("_dlt_load_id", Value.vStr (isoformat dtA))]
      "_dlt_load_id" = some (Value.vStr (isoformat dtA)) :=
  ((normalize_clock_dependence (isoformat dtA) (isoformat dtB)
      [("id", Value.vNum 1)]).2
    [("id", Value.vNum 1), ("_dlt_load_id", Value.vStr (isoformat dtA))]
    [("id", Value.vNum 1), ("_dlt_load_id", Value.vStr (isoformat dtB))]
    rfl rfl).2.1

/-- Claim C10: the 24-hour lower-bound filter is recomputed from the wall
clock read inside each `fetch_crime_data` call and the credential headers
are re-resolved inside each call: every request is built from the clock
and token of its own iteration, and in a concrete two-page run whose
clock readings and tokens differ per iteration, the two successive
requests carry different `$where` filters and different headers. -/
theorem filter_recomputed_per_fetch :
    (∀ env now token offset limit,
      (fetch_crime_data env now token offset limit).request =
        { url := CHICAGO_CRIME_API_URL, limit := limit, offset := offset,
          order := "updated_on DESC",
          whereClause := "updated_on >= \x27"
            ++ strftimeMs000 (subOneDay now) ++ "\x27",
          headers := get_api_headers token }) ∧
    (∀ ctx pages offset total,
      (loaderLoop ctx pages offset total).requests.head? =
        some (buildRequest (ctx.clock pages) (ctx.token pages) offset BATCH_SIZE)) ∧
    (loaderLoop ctxC10 0 0 0).requests.map (fun rq => rq.whereClause) =
      ["updated_on >= \x272025-05-31T12:00:00.000\x27",
       "updated_on >= \x272025-06-14T08:00:00.000\x27"] ∧
    (loaderLoop ctxC10 0 0 0).requests.map (fun rq => rq.headers) =
      [get_api_headers "tokA", get_api_headers "tokB"] := by
  obtain ⟨_, _, _, _, _, hreq⟩ :=
    loaderLoop_success ctxC10 (fun _ => rfl) (srcList_parsable 60)
      ctxC10.env.source.length 0 0 0 (by omega) (by omega)
  have hlen : ctxC10.env.source.length = 60 := by
    simp [ctxC10, srcList]
  rw [hlen] at hreq
  refine ⟨fun env now token offset limit => rfl, loaderLoop_first_request, ?_, ?_⟩
  · rw [hreq]
    decide
  · rw [hreq]
    decide

end CrimeData
